import Mathlib

/-!
Verification development for the snake DQN trainer.

Shallow embedding conventions:
* `f32` values are embedded as `ℚ` (exact arithmetic; every constant appearing
  in the source is exactly representable as a rational).
* `i32` is embedded as `Int`, `usize`/`u32`/`u64` as `Nat`.
* Randomness (food respawn index, exploration draw, replay sampling indices,
  weight initialisation) is externalised: each random draw becomes an explicit
  argument of the embedded function.
* `HashSet`/`VecDeque` become `List`s (insertion only happens behind a
  membership guard, so the lists are set-like where the source uses sets).
* Code that can panic on a shape violation (slice indexing with an input that
  is too short) is embedded with `Option`, `none` modelling the panic.
* The breadth-first-search loops of the source terminate because every cell is
  enqueued at most once; the embedding makes this explicit with a fuel
  argument always instantiated with `grid_size² + 1`, an upper bound on the
  number of loop iterations.
-/

/-! ### engine.rs -/

inductive Direction where
| up
| right
| down
| left
deriving DecidableEq

def Direction.opposite : Direction → Direction
| .up => .down
| .down => .up
| .left => .right
| .right => .left

def Direction.delta : Direction → Int × Int
| .up => (0, -1)
| .right => (1, 0)
| .down => (0, 1)
| .left => (-1, 0)

structure Point where
  x : Int
  y : Int
deriving DecidableEq

def ACTIONS : List Direction := [.up, .right, .down, .left]

structure SnakeEngine where
  grid_size : Int
  snake : List Point
  direction : Direction
  food : Point
  score : Int
  game_over : Bool
  steps_without_food : Int
deriving DecidableEq

/-- Neighbour offsets used by every BFS loop in the source:
`[(0, -1), (1, 0), (0, 1), (-1, 0)]`. -/
def neighborDeltas : List (Int × Int) := [(0, -1), (1, 0), (0, 1), (-1, 0)]

/-- One BFS counting loop (the `while let Some((x, y)) = queue.pop_front()`
loop of `flood_fill_from_head` / `flood_fill_from`): pop a cell, increment the
count, push every in-grid unoccupied unvisited neighbour. -/
def bfsCount (gs : Int) (occupied : List (Int × Int)) :
    Nat → List (Int × Int) → List (Int × Int) → Nat → Nat
| 0, _, _, count => count
| _ + 1, [], _, count => count
| fuel + 1, c :: rest, visited, count =>
  let st := neighborDeltas.foldl
    (fun acc d =>
      let nx := c.1 + d.1
      let ny := c.2 + d.2
      if 0 ≤ nx ∧ nx < gs ∧ 0 ≤ ny ∧ ny < gs ∧ ¬ occupied.contains (nx, ny) ∧
          ¬ acc.2.contains (nx, ny) then
        (acc.1 ++ [(nx, ny)], acc.2 ++ [(nx, ny)])
      else acc)
    (rest, visited)
  bfsCount gs occupied fuel st.1 st.2 (count + 1)

/-- `SnakeEngine::flood_fill_from_head`: BFS from the head with the whole body
as obstacles; the head itself is seeded into the visited set and counted. -/
def SnakeEngine.flood_fill_from_head (s : SnakeEngine) : Nat :=
  let head := s.snake.headD ⟨0, 0⟩
  let occ := s.snake.map (fun p => (p.x, p.y))
  bfsCount s.grid_size occ (s.grid_size.toNat * s.grid_size.toNat + 1)
    [(head.x, head.y)] [(head.x, head.y)] 0

/-- One BFS reachability loop of `can_reach_tail`: pop a cell; if a neighbour
is the target, return `true` immediately (the source does an early `return`,
so no further neighbours of this cell are enqueued). -/
def bfsReach (gs : Int) (occupied : List (Int × Int)) (target : Int × Int) :
    Nat → List (Int × Int) → List (Int × Int) → Bool
| 0, _, _ => false
| _ + 1, [], _ => false
| fuel + 1, c :: rest, visited =>
  let st := neighborDeltas.foldl
    (fun acc d =>
      if acc.1 then acc
      else
        let nx := c.1 + d.1
        let ny := c.2 + d.2
        if nx = target.1 ∧ ny = target.2 then (true, acc.2)
        else if 0 ≤ nx ∧ nx < gs ∧ 0 ≤ ny ∧ ny < gs ∧
            ¬ occupied.contains (nx, ny) ∧ ¬ acc.2.2.contains (nx, ny) then
          (false, (acc.2.1 ++ [(nx, ny)], acc.2.2 ++ [(nx, ny)]))
        else acc)
    (false, (rest, visited))
  if st.1 then true else bfsReach gs occupied target fuel st.2.1 st.2.2

/-- `SnakeEngine::can_reach_tail`: BFS from head to tail, the tail cell removed
from the obstacle set (it is treated as vacated). -/
def SnakeEngine.can_reach_tail (s : SnakeEngine) : Bool :=
  let head := s.snake.headD ⟨0, 0⟩
  let tail := s.snake.getLastD ⟨0, 0⟩
  let occ := (s.snake.map (fun p => (p.x, p.y))).filter
    (fun c => ¬ (c = (tail.x, tail.y)))
  bfsReach s.grid_size occ (tail.x, tail.y)
    (s.grid_size.toNat * s.grid_size.toNat + 1)
    [(head.x, head.y)] [(head.x, head.y)]

/-- `SnakeEngine::spawn_food`; the uniformly random index drawn by
`rng.gen_range(0..free.len())` is externalised as `k` (reduced mod the number
of free cells).  The free list is built scanning `x` then `y`, exactly as the
source's nested loops do. -/
def SnakeEngine.spawn_food (s : SnakeEngine) (k : Nat) : Point :=
  let free : List Point :=
    ((List.range s.grid_size.toNat).map (fun x =>
      (List.range s.grid_size.toNat).filterMap (fun y =>
        let p : Point := ⟨(x : Int), (y : Int)⟩
        if s.snake.contains p then none else some p))).flatten
  if free.isEmpty then ⟨0, 0⟩
  else free.getD (k % free.length) ⟨0, 0⟩

/-- `SnakeEngine::update`: move the head, detect wall/body collision, grow on
food (respawning it with external random index `k`) or drop the tail. -/
def SnakeEngine.update (s : SnakeEngine) (k : Nat) : SnakeEngine :=
  if s.game_over then s
  else
    let d := s.direction.delta
    let head := s.snake.headD ⟨0, 0⟩
    let new_head : Point := ⟨head.x + d.1, head.y + d.2⟩
    if new_head.x < 0 ∨ new_head.x ≥ s.grid_size ∨ new_head.y < 0 ∨
        new_head.y ≥ s.grid_size then
      { s with game_over := true }
    else if s.snake.any (fun p => p.x = new_head.x ∧ p.y = new_head.y) then
      { s with game_over := true }
    else
      let s1 := { s with snake := new_head :: s.snake }
      if new_head.x = s1.food.x ∧ new_head.y = s1.food.y then
        let s2 := { s1 with score := s1.score + 10 }
        { s2 with food := s2.spawn_food k }
      else { s1 with snake := s1.snake.dropLast }

/-- The direction-adoption prefix of `SnakeEngine::step` (lines 85-88): adopt
the requested direction unless it is the exact opposite of the current one. -/
def SnakeEngine.dirAdopt (s : SnakeEngine) (action : Nat) : SnakeEngine :=
  let dir := ACTIONS.getD action .up
  if dir.opposite ≠ s.direction then { s with direction := dir } else s

/-- Manhattan distance from the current head to the current food
(`(head.x - food.x).abs() + (head.y - food.y).abs()`). -/
def SnakeEngine.headDistToFood (s : SnakeEngine) : Int :=
  |(s.snake.headD ⟨0, 0⟩).x - s.food.x| + |(s.snake.headD ⟨0, 0⟩).y - s.food.y|

/-- `SnakeEngine::step`: returns the final engine state together with the
`(reward, game_over)` pair the source returns.  `k` is the externalised food
respawn index. -/
def SnakeEngine.step (s : SnakeEngine) (action : Nat) (k : Nat) :
    SnakeEngine × ℚ × Bool :=
  let s0 := s.dirAdopt action
  let prev_dist := s0.headDistToFood
  let prev_score := s0.score
  let s1 := s0.update k
  if s1.game_over then (s1, -10, true)
  else if s1.score > prev_score then
    ({ s1 with steps_without_food := 0 }, 10, s1.game_over)
  else
    let s2 := { s1 with steps_without_food := s1.steps_without_food + 1 }
    if s2.steps_without_food > s2.grid_size * s2.grid_size then
      ({ s2 with game_over := true }, -10, true)
    else
      let new_dist := s2.headDistToFood
      let approach : ℚ := if new_dist < prev_dist then 1 else -1
      let snake_len : ℚ := (s2.snake.length : ℚ)
      let area : ℚ := ((s2.grid_size * s2.grid_size : Int) : ℚ)
      let safety_bonus : ℚ :=
        if snake_len > area * 0.15 then
          let reachable : ℚ := (s2.flood_fill_from_head : ℚ)
          let space_penalty : ℚ :=
            if reachable < snake_len then -2
            else if reachable < snake_len * 1.5 then -0.5
            else 0
          let tail_bonus : ℚ := if s2.can_reach_tail then 0.5 else -1
          space_penalty + tail_bonus
        else 0
      (s2, approach + safety_bonus, s2.game_over)

/-! ### features.rs -/

/-- `relative_dirs`: (straight, right, left) relative to the current heading. -/
def relative_dirs : Direction → Direction × Direction × Direction
| .up => (.up, .right, .left)
| .right => (.right, .down, .up)
| .down => (.down, .left, .right)
| .left => (.left, .up, .down)

/-- `is_collision`: outside the grid or on the snake body. -/
def is_collision (x y : Int) (engine : SnakeEngine) : Bool :=
  if x < 0 ∨ x ≥ engine.grid_size ∨ y < 0 ∨ y ≥ engine.grid_size then true
  else engine.snake.any (fun s => s.x = x ∧ s.y = y)

/-- The `while` loop of `ray_distance`; at most `grid_size` iterations are
possible because each step moves one cell along a fixed nonzero direction
inside the grid, so fuel `grid_size + 1` is never exhausted. -/
def rayLoop (gs : Int) (body : List Point) (dx dy : Int) :
    Nat → Int → Int → Nat → Nat
| 0, _, _, dist => dist
| fuel + 1, x, y, dist =>
  if 0 ≤ x ∧ x < gs ∧ 0 ≤ y ∧ y < gs ∧
      ¬ body.any (fun s => s.x = x ∧ s.y = y) then
    rayLoop gs body dx dy fuel (x + dx) (y + dy) (dist + 1)
  else dist

/-- `ray_distance`: steps to the first obstacle, normalized by grid size. -/
def ray_distance (engine : SnakeEngine) (dx dy : Int) : ℚ :=
  let head := engine.snake.headD ⟨0, 0⟩
  ((rayLoop engine.grid_size engine.snake dx dy (engine.grid_size.toNat + 1)
      (head.x + dx) (head.y + dy) 1 : ℚ)) / (engine.grid_size : ℚ)

/-- `flood_fill_from` (features.rs): returns 0 immediately when the start cell
is out of the grid or inside the occupied set; otherwise BFS-counts the
component of the start cell. -/
def flood_fill_from (start_x start_y gs : Int)
    (occupied : List (Int × Int)) : Nat :=
  if start_x < 0 ∨ start_x ≥ gs ∨ start_y < 0 ∨ start_y ≥ gs ∨
      occupied.contains (start_x, start_y) then 0
  else
    bfsCount gs occupied (gs.toNat * gs.toNat + 1)
      [(start_x, start_y)] [(start_x, start_y)] 0

/-- `extract_features`: the 28-entry feature vector, in source order. -/
def extract_features (engine : SnakeEngine) : List ℚ :=
  let head := engine.snake.headD ⟨0, 0⟩
  let tail := engine.snake.getLastD ⟨0, 0⟩
  let dir := engine.direction
  let gs := engine.grid_size
  let gsf : ℚ := (gs : ℚ)
  let rel := relative_dirs dir
  let sd := rel.1.delta
  let rd := rel.2.1.delta
  let ld := rel.2.2.delta
  let danger_straight : ℚ :=
    if is_collision (head.x + sd.1) (head.y + sd.2) engine then 1 else 0
  let danger_right : ℚ :=
    if is_collision (head.x + rd.1) (head.y + rd.2) engine then 1 else 0
  let danger_left : ℚ :=
    if is_collision (head.x + ld.1) (head.y + ld.2) engine then 1 else 0
  let danger_straight2 : ℚ :=
    if is_collision (head.x + sd.1 * 2) (head.y + sd.2 * 2) engine then 1 else 0
  let danger_right2 : ℚ :=
    if is_collision (head.x + rd.1 * 2) (head.y + rd.2 * 2) engine then 1 else 0
  let danger_left2 : ℚ :=
    if is_collision (head.x + ld.1 * 2) (head.y + ld.2 * 2) engine then 1 else 0
  let ray_straight := ray_distance engine sd.1 sd.2
  let ray_right := ray_distance engine rd.1 rd.2
  let ray_left := ray_distance engine ld.1 ld.2
  let dir_up : ℚ := if dir = .up then 1 else 0
  let dir_right_f : ℚ := if dir = .right then 1 else 0
  let dir_down : ℚ := if dir = .down then 1 else 0
  let dir_left_f : ℚ := if dir = .left then 1 else 0
  let food_up : ℚ := if engine.food.y < head.y then 1 else 0
  let food_right : ℚ := if engine.food.x > head.x then 1 else 0
  let food_down : ℚ := if engine.food.y > head.y then 1 else 0
  let food_left : ℚ := if engine.food.x < head.x then 1 else 0
  let wall_up : ℚ := (head.y : ℚ) / gsf
  let wall_down : ℚ := ((gs - 1 - head.y : Int) : ℚ) / gsf
  let wall_left : ℚ := (head.x : ℚ) / gsf
  let wall_right : ℚ := ((gs - 1 - head.x : Int) : ℚ) / gsf
  let snake_length : ℚ := (engine.snake.length : ℚ) / (gsf * gsf)
  let occupied : List (Int × Int) := engine.snake.map (fun s => (s.x, s.y))
  let total_free : ℚ := ((gs * gs : Int) : ℚ) - (engine.snake.length : ℚ)
  let reachable : ℚ := (flood_fill_from head.x head.y gs occupied : ℚ)
  let flood_ratio : ℚ := if total_free > 0 then reachable / total_free else 0
  let flood_straight : ℚ :=
    (flood_fill_from (head.x + sd.1) (head.y + sd.2) gs occupied : ℚ)
  let flood_right_f : ℚ :=
    (flood_fill_from (head.x + rd.1) (head.y + rd.2) gs occupied : ℚ)
  let flood_left_f : ℚ :=
    (flood_fill_from (head.x + ld.1) (head.y + ld.2) gs occupied : ℚ)
  let flood_max : ℚ := max total_free 1
  let flood_straight_n := flood_straight / flood_max
  let flood_right_n := flood_right_f / flood_max
  let flood_left_n := flood_left_f / flood_max
  let tail_dx : ℚ := ((tail.x - head.x).sign : ℚ)
  let tail_dy : ℚ := ((tail.y - head.y).sign : ℚ)
  [danger_straight, danger_right, danger_left,
   danger_straight2, danger_right2, danger_left2,
   ray_straight, ray_right, ray_left,
   dir_up, dir_right_f, dir_down, dir_left_f,
   food_up, food_right, food_down, food_left,
   wall_up, wall_right, wall_down, wall_left,
   snake_length,
   flood_ratio,
   flood_straight_n, flood_right_n, flood_left_n,
   tail_dx, tail_dy]

/-! ### nn.rs -/

def INPUT_SIZE : Nat := 22
def HIDDEN1 : Nat := 256
def HIDDEN2 : Nat := 64
def OUTPUT_SIZE : Nat := 4

structure DenseLayer where
  weights : List ℚ
  biases : List ℚ
  relu : Bool
  in_size : Nat
  out_size : Nat
  m_w : List ℚ
  v_w : List ℚ
  m_b : List ℚ
  v_b : List ℚ
deriving DecidableEq

/-- `DenseLayer::new`; the random Xavier-initialised weights are externalised
as the argument `w` (the source draws `in_size * out_size` of them). -/
def DenseLayer.new (in_size out_size : Nat) (relu : Bool) (w : List ℚ) :
    DenseLayer :=
  { weights := w
    biases := List.replicate out_size 0
    relu := relu
    in_size := in_size
    out_size := out_size
    m_w := List.replicate (in_size * out_size) 0
    v_w := List.replicate (in_size * out_size) 0
    m_b := List.replicate out_size 0
    v_b := List.replicate out_size 0 }

instance : Inhabited DenseLayer := ⟨DenseLayer.new 0 0 false []⟩

/-- `DenseLayer::forward_single`.  The source reads `input[i]` for every
`i < in_size`; if the input slice is shorter than `in_size` this panics
(modelled by `none`); if it is longer, the elements past `in_size` are
silently ignored. -/
def DenseLayer.forward_single (l : DenseLayer) (input : List ℚ) :
    Option (List ℚ) :=
  if l.in_size ≤ input.length then
    some ((List.range l.out_size).map (fun j =>
      let sum := (List.range l.in_size).foldl
        (fun acc i => acc + input.getD i 0 * l.weights.getD (i * l.out_size + j) 0)
        (l.biases.getD j 0)
      if l.relu then max sum 0 else sum))
  else none

/-- `DenseLayer::forward_batch`: returns `(z, a)`, the flattened
pre-activations and activations of shape `[bs * out_size]`. -/
def DenseLayer.forward_batch (l : DenseLayer) (input : List ℚ) (bs : Nat) :
    List ℚ × List ℚ :=
  let z := (List.range (bs * l.out_size)).map (fun idx =>
    let b := idx / l.out_size
    let j := idx % l.out_size
    (List.range l.in_size).foldl
      (fun acc i =>
        acc + input.getD (b * l.in_size + i) 0 * l.weights.getD (i * l.out_size + j) 0)
      (l.biases.getD j 0))
  (z, z.map (fun v => if l.relu then max v 0 else v))

/-- `DenseLayer::adam_update`.  The `f32` square root has no exact rational
counterpart, so it is abstracted as the function parameter `fsqrt`; nothing
below depends on its values. -/
def DenseLayer.adam_update (fsqrt : ℚ → ℚ) (l : DenseLayer)
    (gw gb : List ℚ) (lr : ℚ) (t : Nat) : DenseLayer :=
  let b1 : ℚ := 0.9
  let b2 : ℚ := 0.999
  let eps : ℚ := 1e-8
  let bc1 : ℚ := 1 - b1 ^ t
  let bc2 : ℚ := 1 - b2 ^ t
  let m_w := (List.range l.weights.length).map (fun i =>
    b1 * l.m_w.getD i 0 + (1 - b1) * gw.getD i 0)
  let v_w := (List.range l.weights.length).map (fun i =>
    b2 * l.v_w.getD i 0 + (1 - b2) * gw.getD i 0 * gw.getD i 0)
  let weights := (List.range l.weights.length).map (fun i =>
    l.weights.getD i 0 - lr * (m_w.getD i 0 / bc1) / (fsqrt (v_w.getD i 0 / bc2) + eps))
  let m_b := (List.range l.biases.length).map (fun i =>
    b1 * l.m_b.getD i 0 + (1 - b1) * gb.getD i 0)
  let v_b := (List.range l.biases.length).map (fun i =>
    b2 * l.v_b.getD i 0 + (1 - b2) * gb.getD i 0 * gb.getD i 0)
  let biases := (List.range l.biases.length).map (fun i =>
    l.biases.getD i 0 - lr * (m_b.getD i 0 / bc1) / (fsqrt (v_b.getD i 0 / bc2) + eps))
  { l with weights := weights, biases := biases,
           m_w := m_w, v_w := v_w, m_b := m_b, v_b := v_b }

structure Network where
  layers : List DenseLayer
  t : Nat
deriving DecidableEq

/-- `Network::new`: 22 → 256 → 64 → 4, ReLU on the two hidden layers; the
three random weight blocks are externalised as `w0 w1 w2`. -/
def Network.new (w0 w1 w2 : List ℚ) : Network :=
  { layers := [DenseLayer.new INPUT_SIZE HIDDEN1 true w0,
               DenseLayer.new HIDDEN1 HIDDEN2 true w1,
               DenseLayer.new HIDDEN2 OUTPUT_SIZE false w2]
    t := 0 }

/-- `Network::forward`: feeds the input through `layers[0]`, `layers[1]`,
`layers[2]` (the source indexes exactly those three). -/
def Network.forward (net : Network) (input : List ℚ) : Option (List ℚ) :=
  match net.layers with
  | [l0, l1, l2] =>
    (l0.forward_single input).bind (fun b1 =>
      (l1.forward_single b1).bind (fun b2 => l2.forward_single b2))
  | _ => none

/-- `Network::predict_batch`: `forward` applied per row. -/
def Network.predict_batch (net : Network) (inputs : List (List ℚ)) :
    Option (List (List ℚ)) :=
  inputs.mapM net.forward

/-- `matmul_at_b`: `out[i*n+j] = (Σ_s a[s*m+i] * b[s*n+j]) / scale`. -/
def matmul_at_b (a b : List ℚ) (m n bs : Nat) (scale : ℚ) : List ℚ :=
  (List.range (m * n)).map (fun idx =>
    let i := idx / n
    let j := idx % n
    ((List.range bs).foldl
      (fun acc s => acc + a.getD (s * m + i) 0 * b.getD (s * n + j) 0) 0) / scale)

/-- `matmul_a_bt`: `result[b*in+i] = Σ_j a[b*out+j] * w[i*out+j]`. -/
def matmul_a_bt (a w : List ℚ) (out_size in_size bs : Nat) : List ℚ :=
  (List.range (bs * in_size)).map (fun idx =>
    let b := idx / in_size
    let i := idx % in_size
    (List.range out_size).foldl
      (fun acc j => acc + a.getD (b * out_size + j) 0 * w.getD (i * out_size + j) 0) 0)

/-- `sum_cols`: `out[j] = (Σ_b data[b*cols+j]) / scale`. -/
def sum_cols (data : List ℚ) (cols bs : Nat) (scale : ℚ) : List ℚ :=
  (List.range cols).map (fun j =>
    ((List.range bs).foldl (fun acc b => acc + data.getD (b * cols + j) 0) 0) / scale)

/-- `Network::train_batch`: one supervised gradient step with manual
backpropagation and Adam, mirrored from the source line by line (the source
addresses `layers[0]`, `layers[1]`, `layers[2]` directly). -/
def Network.train_batch (fsqrt : ℚ → ℚ) (net : Network)
    (inputs targets : List (List ℚ)) (lr : ℚ) : Network :=
  match net.layers with
  | [l0, l1, l2] =>
    let t1 := net.t + 1
    let bs := inputs.length
    let bsf : ℚ := (bs : ℚ)
    let flat_in := inputs.flatten
    let fb0 := l0.forward_batch flat_in bs
    let fb1 := l1.forward_batch fb0.2 bs
    let fb2 := l2.forward_batch fb1.2 bs
    let dz := (List.range (bs * OUTPUT_SIZE)).map (fun idx =>
      (fb2.2.getD idx 0 - (targets.getD (idx / OUTPUT_SIZE) []).getD (idx % OUTPUT_SIZE) 0)
        * (2 / (OUTPUT_SIZE : ℚ)))
    let gw2 := matmul_at_b fb1.2 dz l2.in_size l2.out_size bs bsf
    let gb2 := sum_cols dz l2.out_size bs bsf
    let delta2 := matmul_a_bt dz l2.weights l2.out_size l2.in_size bs
    let dz1 := (List.range delta2.length).map (fun i =>
      if fb1.1.getD i 0 ≤ 0 then 0 else delta2.getD i 0)
    let gw1 := matmul_at_b fb0.2 dz1 l1.in_size l1.out_size bs bsf
    let gb1 := sum_cols dz1 l1.out_size bs bsf
    let delta1 := matmul_a_bt dz1 l1.weights l1.out_size l1.in_size bs
    let dz0 := (List.range delta1.length).map (fun i =>
      if fb0.1.getD i 0 ≤ 0 then 0 else delta1.getD i 0)
    let gw0 := matmul_at_b flat_in dz0 l0.in_size l0.out_size bs bsf
    let gb0 := sum_cols dz0 l0.out_size bs bsf
    { layers := [l0.adam_update fsqrt gw0 gb0 lr t1,
                 l1.adam_update fsqrt gw1 gb1 lr t1,
                 l2.adam_update fsqrt gw2 gb2 lr t1]
      t := t1 }
  | _ => net

/-- `Network::clone_weights`: same shapes and copied weights/biases, zeroed
Adam moments, step counter reset to 0. -/
def Network.clone_weights (net : Network) : Network :=
  { layers := net.layers.map (fun l =>
      { weights := l.weights
        biases := l.biases
        relu := l.relu
        in_size := l.in_size
        out_size := l.out_size
        m_w := List.replicate l.m_w.length 0
        v_w := List.replicate l.v_w.length 0
        m_b := List.replicate l.m_b.length 0
        v_b := List.replicate l.v_b.length 0 })
    t := 0 }

/-- Modelled from the spec: `Network::soft_update_into` is called by
`DQNAgent::train` (agent.rs line 143) but its definition is not present under
`src/`; §4.1 of the design specifies it as: for every weight and bias element,
`target_value = tau * source_value + (1 - tau) * target_value` (Adam moments
and the step counter of the target are untouched). -/
def soft_update_into (source target : Network) (tau : ℚ) : Network :=
  { target with
    layers := List.zipWith
      (fun ls lt =>
        { lt with
          weights := List.zipWith (fun sv tv => tau * sv + (1 - tau) * tv)
            ls.weights lt.weights,
          biases := List.zipWith (fun sv tv => tau * sv + (1 - tau) * tv)
            ls.biases lt.biases })
      source.layers target.layers }

/-! ### agent.rs -/

structure Experience where
  state : List ℚ
  action : Nat
  reward : ℚ
  next_state : List ℚ
  done : Bool
deriving DecidableEq

instance : Inhabited Experience := ⟨⟨[], 0, 0, [], false⟩⟩

structure DQNAgent where
  network : Network
  target_network : Network
  replay_buffer : List Experience
  buffer_size : Nat
  batch_size : Nat
  gamma : ℚ
  epsilon : ℚ
  epsilon_min : ℚ
  epsilon_decay : ℚ
  learning_rate : ℚ
  lr_min : ℚ
  lr_decay : ℚ
  tau : ℚ
  train_every : Nat
  step_count : Nat
deriving DecidableEq

/-- `DQNAgent::new`, with the random initial weights externalised. -/
def DQNAgent.new (w0 w1 w2 : List ℚ) : DQNAgent :=
  let network := Network.new w0 w1 w2
  { network := network
    target_network := network.clone_weights
    replay_buffer := []
    buffer_size := 50000
    batch_size := 64
    gamma := 0.99
    epsilon := 1
    epsilon_min := 0.01
    epsilon_decay := 0.998
    learning_rate := 0.001
    lr_min := 0.0001
    lr_decay := 0.999995
    tau := 0.001
    train_every := 4
    step_count := 0 }

/-- Rust's `Iterator::max_by` over `q.iter().enumerate()`: fold that keeps the
current best `(index, value)` only while it is strictly greater than the next
element, so among equal maxima the LAST one survives.  `none` models the
`.unwrap()` panic on an empty iterator; the `partial_cmp(..).unwrap()` inside
cannot fail here because `ℚ` (unlike `f32`) has no NaN — this embedding is the
claim C10 precondition "no NaN among the outputs" made structural. -/
def maxByLast (q : List ℚ) : Option (Nat × ℚ) :=
  q.enum.foldl
    (fun acc x =>
      match acc with
      | none => some x
      | some a => if x.2 < a.2 then some a else some x)
    none

/-- `DQNAgent::act_greedy`: forward the features, take the argmax index. -/
def DQNAgent.act_greedy (ag : DQNAgent) (features : List ℚ) : Option Nat :=
  (ag.network.forward features).bind (fun q => (maxByLast q).map (fun p => p.1))

/-- `DQNAgent::act`: with the externalised uniform draw `r < ε`, explore with
the externalised random action `ra` (the source draws `gen_range(0..4)`,
hence `Fin 4`); otherwise act greedily. -/
def DQNAgent.act (ag : DQNAgent) (features : List ℚ) (r : ℚ) (ra : Fin 4) :
    Option Nat :=
  if r < ag.epsilon then some ra.val else ag.act_greedy features

/-- `DQNAgent::remember`: bounded FIFO insert (pop the front when full, then
push at the back). -/
def DQNAgent.remember (ag : DQNAgent) (exp : Experience) : DQNAgent :=
  let buf := if ag.replay_buffer.length ≥ ag.buffer_size
    then ag.replay_buffer.tail else ag.replay_buffer
  { ag with replay_buffer := buf ++ [exp] }

/-- The `best_action` selection of `DQNAgent::train` (lines 128-133): the main
network's row decides, with Rust's last-maximum tie-break.  The `.unwrap()`
default is never reached on the 4-wide rows the network produces. -/
def bestActionIdx (row : List ℚ) : Nat :=
  ((maxByLast row).getD (0, 0)).1

/-- The target-matrix construction of `DQNAgent::train` (lines 120-137): clone
`current_qs`, then for each batch row overwrite only the taken action's column
with the Double-DQN target. -/
def train_targets (currentQs mainNextQs targetNextQs : List (List ℚ))
    (indices : List Nat) (buf : List Experience) (gamma : ℚ) :
    List (List ℚ) :=
  (List.range currentQs.length).map (fun idx =>
    let exp := buf.getD (indices.getD idx 0) default
    (currentQs.getD idx []).set exp.action
      (if exp.done then exp.reward
       else exp.reward + gamma *
         (targetNextQs.getD idx []).getD (bestActionIdx (mainNextQs.getD idx [])) 0))

/-- `DQNAgent::train`.  The batch of uniformly sampled buffer indices is
externalised as `indices`; the guard mirrors the sampling contract
(`gen_range(0..buf_len)` draws `batch_size` in-range indices).  `none` models
a panic inside the forward passes. -/
def DQNAgent.train (fsqrt : ℚ → ℚ) (ag : DQNAgent) (indices : List Nat) :
    Option DQNAgent :=
  if ag.replay_buffer.length < ag.batch_size then some ag
  else if indices.length = ag.batch_size ∧
      indices.all (fun i => i < ag.replay_buffer.length) then
    let states := indices.map (fun i => (ag.replay_buffer.getD i default).state)
    let next_states :=
      indices.map (fun i => (ag.replay_buffer.getD i default).next_state)
    (ag.network.predict_batch states).bind (fun currentQs =>
    (ag.network.predict_batch next_states).bind (fun mainNextQs =>
    (ag.target_network.predict_batch next_states).bind (fun targetNextQs =>
      let targets := train_targets currentQs mainNextQs targetNextQs indices
        ag.replay_buffer ag.gamma
      let network1 := ag.network.train_batch fsqrt states targets ag.learning_rate
      let target1 := soft_update_into network1 ag.target_network ag.tau
      let lr1 := if ag.learning_rate > ag.lr_min then
          let l := ag.learning_rate * ag.lr_decay
          if l < ag.lr_min then ag.lr_min else l
        else ag.learning_rate
      some { ag with network := network1, target_network := target1,
                     learning_rate := lr1 })))
  else none

/-- `DQNAgent::step_and_train`: bump the step counter, train only on every
`train_every`-th call. -/
def DQNAgent.step_and_train (fsqrt : ℚ → ℚ) (ag : DQNAgent)
    (indices : List Nat) : Option DQNAgent :=
  let ag1 := { ag with step_count := ag.step_count + 1 }
  if ag1.step_count % ag1.train_every ≠ 0 then some ag1
  else ag1.train fsqrt indices

/-- `DQNAgent::decay_epsilon`: multiply by the decay factor only while ε is
above the floor; note there is no clamp after the multiplication. -/
def DQNAgent.decay_epsilon (ag : DQNAgent) : DQNAgent :=
  if ag.epsilon > ag.epsilon_min
  then { ag with epsilon := ag.epsilon * ag.epsilon_decay }
  else ag

/-- `DQNAgent::end_episode`. -/
def DQNAgent.end_episode (ag : DQNAgent) : DQNAgent :=
  ag.decay_epsilon

/-- Agent states reachable from `DQNAgent::new` by the mutating public
operations (`act` takes `&self` and mutates nothing). -/
inductive DQNAgent.Reachable (fsqrt : ℚ → ℚ) : DQNAgent → Prop
| init (w0 w1 w2 : List ℚ) : DQNAgent.Reachable fsqrt (DQNAgent.new w0 w1 w2)
| rem {ag : DQNAgent} (e : Experience) :
    DQNAgent.Reachable fsqrt ag → DQNAgent.Reachable fsqrt (ag.remember e)
| sat {ag ag' : DQNAgent} (indices : List Nat) :
    DQNAgent.Reachable fsqrt ag →
    ag.step_and_train fsqrt indices = some ag' →
    DQNAgent.Reachable fsqrt ag'
| ep {ag : DQNAgent} :
    DQNAgent.Reachable fsqrt ag → DQNAgent.Reachable fsqrt ag.end_episode

/-! ### Spec-side definitions and concrete values used by the claims -/

/-- The safety term exactly as claim C9 words it: once snake length exceeds
15% of grid area, (−2 if the reachable-area count R < length; −0.5 if
length ≤ R < 1.5·length; else 0) plus (+0.5 if the tail cell is reachable
treating it as vacated, else −1); at or below the threshold, 0. -/
def specSafetyTerm (s : SnakeEngine) : ℚ :=
  let len : ℚ := (s.snake.length : ℚ)
  let area : ℚ := ((s.grid_size * s.grid_size : Int) : ℚ)
  if len > area * 0.15 then
    (if (s.flood_fill_from_head : ℚ) < len then -2
     else if (s.flood_fill_from_head : ℚ) < 1.5 * len then -0.5
     else 0) +
    (if s.can_reach_tail then 0.5 else -1)
  else 0

/-- Number of the head's four neighbouring cells that are free, judged by the
source's own `is_collision` predicate (in-grid and not on the body). -/
def freeNeighborCount (s : SnakeEngine) : Nat :=
  (neighborDeltas.filter (fun d =>
    ¬ is_collision ((s.snake.headD ⟨0, 0⟩).x + d.1)
      ((s.snake.headD ⟨0, 0⟩).y + d.2) s)).length

/-- A dense layer with all-zero weights (a value the weight matrix can in
principle reach; used to exhibit exact ties between the four outputs). -/
def zeroLayer (i o : Nat) (r : Bool) : DenseLayer :=
  DenseLayer.new i o r (List.replicate (i * o) 0)

/-- A tiny all-zero three-layer network: every forward pass yields
`[0, 0, 0, 0]`, so all four Q-values tie exactly. -/
def exTieNet : Network :=
  { layers := [zeroLayer 1 1 true, zeroLayer 1 1 true, zeroLayer 1 4 false]
    t := 0 }

/-- An empty network value, used where a claim does not involve the nets. -/
def emptyNet : Network := { layers := [], t := 0 }

/-- An agent holding `exTieNet`, all scalar fields as in `DQNAgent::new`. -/
def exTieAgent : DQNAgent :=
  { network := exTieNet
    target_network := exTieNet.clone_weights
    replay_buffer := []
    buffer_size := 50000
    batch_size := 64
    gamma := 0.99
    epsilon := 1
    epsilon_min := 0.01
    epsilon_decay := 0.998
    learning_rate := 0.001
    lr_min := 0.0001
    lr_decay := 0.999995
    tau := 0.001
    train_every := 4
    step_count := 0 }

/-- A small network with distinct outputs for the C10 witness. -/
def exNet10 : Network :=
  { layers := [DenseLayer.new 2 2 true [1, 0, 0, 1],
               DenseLayer.new 2 3 true [1, 0, 0, 0, 1, 0],
               DenseLayer.new 3 4 false [1, 0, 0, 0, 0, 2, 0, 0, 0, 0, 3, 0]]
    t := 0 }

/-- An agent holding `exNet10`. -/
def exAgent10 : DQNAgent := { exTieAgent with network := exNet10 }

/-- Agent state one decay step above the floor: ε = 0.010001 while
ε_min = 0.01, exhibiting that `decay_epsilon` has no clamp. -/
def exEpsAgent : DQNAgent :=
  { exTieAgent with network := emptyNet, target_network := emptyNet,
                    epsilon := 0.010001 }

/-- A terminal engine state (game over already set), heading right. -/
def exTermEngine : SnakeEngine :=
  { grid_size := 5
    snake := [⟨2, 2⟩, ⟨1, 2⟩, ⟨0, 2⟩]
    direction := .right
    food := ⟨4, 4⟩
    score := 0
    game_over := true
    steps_without_food := 0 }

/-- A running 6×6 state whose head has three free neighbours. -/
def exEngine2 : SnakeEngine :=
  { grid_size := 6
    snake := [⟨3, 3⟩, ⟨2, 3⟩, ⟨1, 3⟩]
    direction := .right
    food := ⟨5, 3⟩
    score := 0
    game_over := false
    steps_without_food := 0 }

/-- A running 4×4 state: snake length 3 exceeds 15% of the 16-cell area, so
the safety term is active on the next non-eating step. -/
def exEngine9 : SnakeEngine :=
  { grid_size := 4
    snake := [⟨1, 1⟩, ⟨0, 1⟩, ⟨0, 0⟩]
    direction := .right
    food := ⟨3, 3⟩
    score := 0
    game_over := false
    steps_without_food := 0 }

/-- Sqrt stand-in used to instantiate the abstract `fsqrt` in witnesses. -/
def zeroSqrt : ℚ → ℚ := fun _ => 0

/-- Agent with a one-element buffer and batch size 1, small enough that one
full `train` call evaluates by `decide`. -/
def exTrainAgent : DQNAgent :=
  { exTieAgent with
    target_network := exTieNet
    replay_buffer := [⟨[0], 0, 1, [0], true⟩]
    batch_size := 1 }

/-- Agent with capacity 2 and an empty buffer, for the FIFO witness. -/
def exBufAgent : DQNAgent :=
  { exTieAgent with network := emptyNet, target_network := emptyNet,
                    buffer_size := 2 }

/-- Three pairwise distinct experiences. -/
def expA : Experience := ⟨[1], 0, 0, [], false⟩

/-- Second distinct experience. -/
def expB : Experience := ⟨[2], 1, 0, [], false⟩

/-- Third distinct experience. -/
def expC : Experience := ⟨[3], 2, 0, [], true⟩

/-- The total step function underlying `maxByLast` once the accumulator is
nonempty: keep `a` only while it is strictly greater. -/
def mstep (a x : Nat × ℚ) : Nat × ℚ := if x.2 < a.2 then a else x

/-! ### Lemmas: last-maximum characterisation of `maxByLast` -/

theorem foldl_optstep_eq (l : List (Nat × ℚ)) : ∀ a : Nat × ℚ,
    List.foldl
      (fun acc x =>
        match acc with
        | none => some x
        | some a => if x.2 < a.2 then some a else some x)
      (some a) l
    = some (List.foldl mstep a l) := by
  induction l with
  | nil => intro a; rfl
  | cons x xs ih =>
    intro a
    simp only [List.foldl_cons]
    have h : (if x.2 < a.2 then some a else some x) = some (mstep a x) := by
      unfold mstep; split <;> rfl
    rw [h]
    exact ih (mstep a x)

theorem maxByLast_cons (x : ℚ) (q' : List ℚ) :
    maxByLast (x :: q') = some (List.foldl mstep (0, x) (List.enumFrom 1 q')) := by
  unfold maxByLast
  rw [List.enum, List.enumFrom_cons]
  simp only [List.foldl_cons]
  exact foldl_optstep_eq _ _

theorem foldl_mstep_le (q : List ℚ) : ∀ (n : Nat) (a : Nat × ℚ),
    a.2 ≤ (List.foldl mstep a (List.enumFrom n q)).2 := by
  induction q with
  | nil => intro n a; simp [List.enumFrom]
  | cons x q' ih =>
    intro n a
    rw [List.enumFrom_cons, List.foldl_cons]
    refine le_trans ?_ (ih (n + 1) (mstep a (n, x)))
    unfold mstep
    split
    · exact le_refl _
    · exact le_of_not_lt (by assumption)

theorem foldl_mstep_elem_le (q : List ℚ) : ∀ (n : Nat) (a : Nat × ℚ) (j : Nat),
    j < q.length → q.getD j 0 ≤ (List.foldl mstep a (List.enumFrom n q)).2 := by
  induction q with
  | nil => intro n a j h; simp at h
  | cons x q' ih =>
    intro n a j hj
    rw [List.enumFrom_cons, List.foldl_cons]
    cases j with
    | zero =>
      rw [List.getD_cons_zero]
      refine le_trans ?_ (foldl_mstep_le q' (n + 1) (mstep a (n, x)))
      unfold mstep
      split
      · exact le_of_lt (by assumption)
      · exact le_refl _
    | succ j' =>
      rw [List.getD_cons_succ]
      refine ih (n + 1) (mstep a (n, x)) j' ?_
      simpa using hj

theorem foldl_mstep_provenance (q : List ℚ) : ∀ (n : Nat) (a : Nat × ℚ),
    List.foldl mstep a (List.enumFrom n q) = a ∨
    ∃ j, j < q.length ∧ (List.foldl mstep a (List.enumFrom n q)).1 = n + j ∧
      (List.foldl mstep a (List.enumFrom n q)).2 = q.getD j 0 := by
  induction q with
  | nil => intro n a; left; simp [List.enumFrom]
  | cons x q' ih =>
    intro n a
    rw [List.enumFrom_cons, List.foldl_cons]
    rcases ih (n + 1) (mstep a (n, x)) with h | ⟨j, hj, h1, h2⟩
    · by_cases hx : x < a.2
      · left
        rw [h]
        unfold mstep
        exact if_pos hx
      · right
        refine ⟨0, by simp, ?_, ?_⟩
        · rw [h]
          unfold mstep
          rw [if_neg hx]
          rfl
        · rw [h]
          unfold mstep
          rw [if_neg hx, List.getD_cons_zero]
    · right
      refine ⟨j + 1, by simpa using hj, ?_, ?_⟩
      · rw [h1]; omega
      · rw [h2, List.getD_cons_succ]

theorem foldl_mstep_last (q : List ℚ) : ∀ (n : Nat) (a : Nat × ℚ), a.1 < n →
    ∀ j, j < q.length → (List.foldl mstep a (List.enumFrom n q)).1 < n + j →
      q.getD j 0 < (List.foldl mstep a (List.enumFrom n q)).2 := by
  induction q with
  | nil => intro n a _ j hj; simp at hj
  | cons x q' ih =>
    intro n a ha j hj hlt
    rw [List.enumFrom_cons, List.foldl_cons] at hlt ⊢
    cases j with
    | zero =>
      rw [Nat.add_zero] at hlt
      rw [List.getD_cons_zero]
      by_cases hx : x < a.2
      · have hb : mstep a (n, x) = a := by unfold mstep; exact if_pos hx
        rw [hb] at hlt ⊢
        exact lt_of_lt_of_le hx (foldl_mstep_le q' (n + 1) a)
      · have hb : mstep a (n, x) = (n, x) := by unfold mstep; exact if_neg hx
        rw [hb] at hlt
        rcases foldl_mstep_provenance q' (n + 1) (n, x) with h | ⟨j', _, h1, _⟩
        · rw [h] at hlt; simp at hlt
        · rw [h1] at hlt; omega
    | succ j' =>
      rw [List.getD_cons_succ]
      refine ih (n + 1) (mstep a (n, x)) ?_ j' (by simpa using hj) (by omega)
      unfold mstep
      split
      · exact Nat.lt_succ_of_lt ha
      · exact Nat.lt_succ_self n

theorem maxByLast_char (q : List ℚ) (hq : q ≠ []) :
    ∃ i, maxByLast q = some (i, q.getD i 0) ∧ i < q.length ∧
      (∀ j, j < q.length → q.getD j 0 ≤ q.getD i 0) ∧
      (∀ j, i < j → j < q.length → q.getD j 0 < q.getD i 0) := by
  match q, hq with
  | x :: q', _ =>
    rw [maxByLast_cons]
    rcases foldl_mstep_provenance q' 1 (0, x) with h | ⟨j, hj, h1, h2⟩
    · refine ⟨0, ?_, by simp, ?_, ?_⟩
      · rw [h, List.getD_cons_zero]
      · intro j hjl
        cases j with
        | zero => exact le_refl _
        | succ j' =>
          rw [List.getD_cons_zero, List.getD_cons_succ]
          have := foldl_mstep_elem_le q' 1 (0, x) j' (by simpa using hjl)
          rw [h] at this
          exact this
      · intro j h0 hjl
        cases j with
        | zero => omega
        | succ j' =>
          rw [List.getD_cons_zero, List.getD_cons_succ]
          have := foldl_mstep_last q' 1 (0, x) (by norm_num) j'
            (by simpa using hjl) (by rw [h]; omega)
          rw [h] at this
          exact this
    · refine ⟨j + 1, ?_, by simpa using hj, ?_, ?_⟩
      · have : List.foldl mstep (0, x) (List.enumFrom 1 q') =
            (j + 1, (x :: q').getD (j + 1) 0) := by
          refine Prod.ext ?_ ?_
          · rw [h1]; omega
          · rw [h2, List.getD_cons_succ]
        rw [this]
      · intro j2 hj2
        rw [List.getD_cons_succ]
        rw [← h2]
        cases j2 with
        | zero =>
          rw [List.getD_cons_zero]
          exact foldl_mstep_le q' 1 (0, x)
        | succ k =>
          rw [List.getD_cons_succ]
          exact foldl_mstep_elem_le q' 1 (0, x) k (by simpa using hj2)
      · intro j2 hgt hj2
        rw [List.getD_cons_succ]
        cases j2 with
        | zero => omega
        | succ k =>
          rw [List.getD_cons_succ, ← h2]
          exact foldl_mstep_last q' 1 (0, x) (by norm_num) k
            (by simpa using hj2) (by rw [h1]; omega)

/-! ### Generic list lemmas -/

theorem getD_take_lt {α : Type} (l : List α) (k i : Nat) (d : α) (h : i < k) :
    (l.take k).getD i d = l.getD i d := by
  rw [List.getD_eq_getElem?_getD, List.getD_eq_getElem?_getD,
    List.getElem?_take, if_pos h]

theorem getD_map_range {α : Type} (f : Nat → α) (n i : Nat) (d : α)
    (h : i < n) : ((List.range n).map f).getD i d = f i := by
  rw [List.getD_eq_getElem?_getD, List.getElem?_map, List.getElem?_range h]
  rfl

theorem getD_set_self {α : Type} (l : List α) (n : Nat) (a d : α)
    (h : n < l.length) : (l.set n a).getD n d = a := by
  rw [List.getD_eq_getElem?_getD, List.getElem?_set_self h]
  rfl

theorem getD_set_ne {α : Type} (l : List α) (i j : Nat) (a d : α)
    (h : i ≠ j) : (l.set i a).getD j d = l.getD j d := by
  rw [List.getD_eq_getElem?_getD, List.getElem?_set_ne h,
    ← List.getD_eq_getElem?_getD]

theorem getD_zipWith {α β γ : Type} (f : α → β → γ) :
    ∀ (as : List α) (bs : List β) (i : Nat) (da : α) (db : β) (dc : γ),
    i < as.length → i < bs.length →
    (List.zipWith f as bs).getD i dc = f (as.getD i da) (bs.getD i db) := by
  intro as
  induction as with
  | nil => intro bs i _ _ _ h; simp at h
  | cons a as ih =>
    intro bs i da db dc ha hb
    cases bs with
    | nil => simp at hb
    | cons b bs =>
      cases i with
      | zero => rfl
      | succ i' =>
        simp only [List.zipWith_cons_cons, List.getD_cons_succ]
        exact ih bs i' da db dc (by simpa using ha) (by simpa using hb)

theorem zipWith_tau_one : ∀ (as bs : List ℚ), as.length = bs.length →
    List.zipWith (fun sv tv => 1 * sv + (1 - 1) * tv) as bs = as := by
  intro as
  induction as with
  | nil => intro bs _; rfl
  | cons a as ih =>
    intro bs h
    cases bs with
    | nil => simp at h
    | cons b bs =>
      simp only [List.zipWith_cons_cons]
      rw [ih bs (by simpa using h)]
      norm_num

theorem foldl_range_congr {α : Type} (n : Nat) :
    ∀ (f g : α → Nat → α) (a : α), (∀ acc i, i < n → f acc i = g acc i) →
    List.foldl f a (List.range n) = List.foldl g a (List.range n) := by
  induction n with
  | zero => intro f g a _; rfl
  | succ n ih =>
    intro f g a h
    rw [List.range_succ, List.foldl_append, List.foldl_append]
    rw [ih f g a (fun acc i hi => h acc i (Nat.lt_succ_of_lt hi))]
    simp only [List.foldl_cons, List.foldl_nil]
    exact h _ n (Nat.lt_succ_self n)

/-! ### Lemmas about the network forward pass -/

theorem forward_single_some (l : DenseLayer) (input : List ℚ)
    (h : l.in_size ≤ input.length) :
    ∃ out, l.forward_single input = some out ∧ out.length = l.out_size := by
  unfold DenseLayer.forward_single
  rw [if_pos h]
  exact ⟨_, rfl, by simp⟩

theorem forward_single_take (l : DenseLayer) (input : List ℚ)
    (h : l.in_size ≤ input.length) :
    l.forward_single (input.take l.in_size) = l.forward_single input := by
  unfold DenseLayer.forward_single
  rw [if_pos h, if_pos (by simp only [List.length_take, le_min_iff, le_refl, true_and]; exact h)]
  congr 1
  apply List.map_congr_left
  intro j _
  have hs := foldl_range_congr l.in_size
    (fun acc i => acc + (input.take l.in_size).getD i 0 * l.weights.getD (i * l.out_size + j) 0)
    (fun acc i => acc + input.getD i 0 * l.weights.getD (i * l.out_size + j) 0)
    (l.biases.getD j 0)
    (fun acc i hi => by dsimp only; rw [getD_take_lt input l.in_size i 0 hi])
  rw [hs]

theorem forward_some_of_shapes (net : Network) (l0 l1 l2 : DenseLayer)
    (input : List ℚ) (hl : net.layers = [l0, l1, l2])
    (h0 : l0.in_size ≤ input.length) (h1 : l1.in_size ≤ l0.out_size)
    (h2 : l2.in_size ≤ l1.out_size) :
    ∃ q, net.forward input = some q ∧ q.length = l2.out_size := by
  obtain ⟨b1, hb1, hb1l⟩ := forward_single_some l0 input h0
  obtain ⟨b2, hb2, hb2l⟩ := forward_single_some l1 b1 (hb1l ▸ h1)
  obtain ⟨b3, hb3, hb3l⟩ := forward_single_some l2 b2 (hb2l ▸ h2)
  refine ⟨b3, ?_, hb3l⟩
  unfold Network.forward
  rw [hl]
  simp only [hb1, hb2, hb3, Option.some_bind]

theorem flood_fill_from_head_cell (s : SnakeEngine) (hs : s.snake ≠ []) :
    flood_fill_from (s.snake.headD ⟨0, 0⟩).x (s.snake.headD ⟨0, 0⟩).y
      s.grid_size (s.snake.map (fun p => (p.x, p.y))) = 0 := by
  unfold flood_fill_from
  rw [if_pos]
  refine Or.inr (Or.inr (Or.inr (Or.inr ?_)))
  match s, hs with
  | ⟨gs, p :: rest, d, fd, sc, go, st⟩, _ =>
    simp only [List.headD_cons, List.map_cons]
    simp [List.contains_cons]

/-! ### Claim C1 -/

/-- Claim C1 (code_bug evidence): `extract_features` emits 28 values while the
first layer built by `Network::new` has input width 22 (`INPUT_SIZE`), yet
`forward` does not reject the 28-long vector: it returns `some` output, and
that output coincides with the one computed from the truncated 22-prefix of
the features — the six extra features are silently ignored rather than the
mismatch being rejected before any computation. -/
theorem c1_input_width_mismatch_silently_truncated
    (s : SnakeEngine) (w0 w1 w2 : List ℚ) :
    (extract_features s).length = 28 ∧
    (Network.new w0 w1 w2).layers =
      [DenseLayer.new INPUT_SIZE HIDDEN1 true w0,
       DenseLayer.new HIDDEN1 HIDDEN2 true w1,
       DenseLayer.new HIDDEN2 OUTPUT_SIZE false w2] ∧
    INPUT_SIZE = 22 ∧
    (Network.new w0 w1 w2).forward ((extract_features s).take 22) =
      (Network.new w0 w1 w2).forward (extract_features s) ∧
    (∃ out, (Network.new w0 w1 w2).forward (extract_features s) = some out) := by
  have hlen : (extract_features s).length = 28 := rfl
  refine ⟨hlen, rfl, rfl, ?_, ?_⟩
  · have h0 : (DenseLayer.new INPUT_SIZE HIDDEN1 true w0).in_size ≤
        (extract_features s).length := by
      rw [hlen]
      show (22 : Nat) ≤ 28
      decide
    have htake := forward_single_take
      (DenseLayer.new INPUT_SIZE HIDDEN1 true w0) (extract_features s) h0
    have h22 : (22 : Nat) = (DenseLayer.new INPUT_SIZE HIDDEN1 true w0).in_size := rfl
    unfold Network.forward
    rw [show (Network.new w0 w1 w2).layers =
      [DenseLayer.new INPUT_SIZE HIDDEN1 true w0,
       DenseLayer.new HIDDEN1 HIDDEN2 true w1,
       DenseLayer.new HIDDEN2 OUTPUT_SIZE false w2] from rfl]
    dsimp only
    rw [h22, htake]
  · obtain ⟨q, hq, _⟩ := forward_some_of_shapes (Network.new w0 w1 w2)
      (DenseLayer.new INPUT_SIZE HIDDEN1 true w0)
      (DenseLayer.new HIDDEN1 HIDDEN2 true w1)
      (DenseLayer.new HIDDEN2 OUTPUT_SIZE false w2)
      (extract_features s) rfl
      (by rw [hlen]; show (22 : Nat) ≤ 28; decide)
      (Nat.le_refl _) (Nat.le_refl _)
    exact ⟨q, hq⟩

/-! ### Claim C2 -/

/-- Claim C2 (code_bug evidence): the global flood-fill-ratio feature (index
22 of the vector) is 0 for EVERY state with a nonempty snake, because the head
cell — itself part of the occupied set built from the body — is passed to
`flood_fill_from`, which returns 0 for an occupied start cell.  In particular
it is 0 on `exEngine2`, whose head has three free neighbouring cells,
contradicting "equals 0 exactly when the head has zero free neighbours". -/
theorem c2_flood_ratio_constantly_zero :
    (∀ s : SnakeEngine, s.snake ≠ [] → (extract_features s).getD 22 0 = 0) ∧
    (extract_features exEngine2).getD 22 0 = 0 ∧
    freeNeighborCount exEngine2 = 3 := by
  have hgen : ∀ s : SnakeEngine, s.snake ≠ [] →
      (extract_features s).getD 22 0 = 0 := by
    intro s hs
    have hz := flood_fill_from_head_cell s hs
    unfold extract_features
    simp only [List.getD_cons_succ, List.getD_cons_zero]
    rw [hz]
    norm_num
  exact ⟨hgen, hgen exEngine2 (by decide), by decide⟩

/-- Witness for C2's universally quantified part, instantiated at `exEngine2`. -/
theorem c2_witness :
    exEngine2.snake ≠ [] ∧ (extract_features exEngine2).getD 22 0 = 0 :=
  ⟨by decide, c2_flood_ratio_constantly_zero.1 exEngine2 (by decide)⟩

/-! ### Claim C3 -/

/-- Claim C3, amended: on the greedy branch the returned index attains the
maximum Q-value, but ties are broken by the LAST maximum (highest index, the
behaviour of Rust's `Iterator::max_by`), not the lowest; the same holds for
the `best_action` argmax used inside `DQNAgent::train`. -/
theorem c3_act_greedy_last_max (ag : DQNAgent) (f q : List ℚ)
    (hq : ag.network.forward f = some q) (hne : q ≠ []) :
    (∃ i, ag.act_greedy f = some i ∧ i < q.length ∧
      (∀ j, j < q.length → q.getD j 0 ≤ q.getD i 0) ∧
      (∀ j, i < j → j < q.length → q.getD j 0 < q.getD i 0)) ∧
    (∀ row : List ℚ, row ≠ [] →
      bestActionIdx row < row.length ∧
      (∀ j, j < row.length → row.getD j 0 ≤ row.getD (bestActionIdx row) 0) ∧
      (∀ j, bestActionIdx row < j → j < row.length →
        row.getD j 0 < row.getD (bestActionIdx row) 0)) := by
  constructor
  · obtain ⟨i, hmax, hlt, hub, hlast⟩ := maxByLast_char q hne
    refine ⟨i, ?_, hlt, hub, hlast⟩
    unfold DQNAgent.act_greedy
    rw [hq, Option.some_bind, hmax]
    rfl
  · intro row hrow
    obtain ⟨i, hmax, hlt, hub, hlast⟩ := maxByLast_char row hrow
    have hb : bestActionIdx row = i := by
      unfold bestActionIdx
      rw [hmax]
      rfl
    rw [hb]
    exact ⟨hlt, hub, hlast⟩

/-- Counterexample to C3 as stated: on the all-zero network every output ties
at 0, yet `act_greedy` returns index 3 — the last maximum — not the lowest
index 0 the claim requires. -/
theorem c3_cex_tie_returns_last :
    exTieAgent.network.forward [5] = some [0, 0, 0, 0] ∧
    exTieAgent.act_greedy [5] = some 3 := by
  constructor
  · simp +decide [exTieAgent, exTieNet, zeroLayer, DenseLayer.new,
      Network.forward, DenseLayer.forward_single]
  · simp +decide [exTieAgent, exTieNet, zeroLayer, DenseLayer.new,
      Network.forward, DenseLayer.forward_single, DQNAgent.act_greedy,
      maxByLast, List.enum, List.enumFrom, mstep]

/-- Witness for C3's amended theorem at the all-zero tie network. -/
theorem c3_witness :
    (exTieAgent.network.forward [5] = some [0, 0, 0, 0] ∧
      ([0, 0, 0, 0] : List ℚ) ≠ []) ∧
    (∃ i, exTieAgent.act_greedy [5] = some i ∧ i < ([0, 0, 0, 0] : List ℚ).length ∧
      (∀ j, j < ([0, 0, 0, 0] : List ℚ).length →
        ([0, 0, 0, 0] : List ℚ).getD j 0 ≤ ([0, 0, 0, 0] : List ℚ).getD i 0) ∧
      (∀ j, i < j → j < ([0, 0, 0, 0] : List ℚ).length →
        ([0, 0, 0, 0] : List ℚ).getD j 0 < ([0, 0, 0, 0] : List ℚ).getD i 0)) :=
  ⟨⟨by simp +decide [exTieAgent, exTieNet, zeroLayer, DenseLayer.new,
      Network.forward, DenseLayer.forward_single], by simp⟩,
   (c3_act_greedy_last_max exTieAgent [5] [0, 0, 0, 0]
      (by simp +decide [exTieAgent, exTieNet, zeroLayer, DenseLayer.new,
        Network.forward, DenseLayer.forward_single]) (by simp)).1⟩

/-! ### Claim C6 -/

theorem dirAdopt_fields (s : SnakeEngine) (a : Nat) :
    (s.dirAdopt a).snake = s.snake ∧ (s.dirAdopt a).food = s.food ∧
    (s.dirAdopt a).score = s.score ∧ (s.dirAdopt a).game_over = s.game_over ∧
    (s.dirAdopt a).steps_without_food = s.steps_without_food ∧
    (s.dirAdopt a).grid_size = s.grid_size := by
  unfold SnakeEngine.dirAdopt
  dsimp only
  split <;> exact ⟨rfl, rfl, rfl, rfl, rfl, rfl⟩

theorem update_terminal (s : SnakeEngine) (k : Nat) (h : s.game_over = true) :
    s.update k = s := by
  unfold SnakeEngine.update
  rw [if_pos h]

theorem step_terminal_eq (s : SnakeEngine) (a k : Nat)
    (h : s.game_over = true) :
    s.step a k = (s.dirAdopt a, -10, true) := by
  obtain ⟨h1, h2, h3, h4, h5, h6⟩ := dirAdopt_fields s a
  have hu : (s.dirAdopt a).update k = s.dirAdopt a :=
    update_terminal _ k (by rw [h4]; exact h)
  have hg : ((s.dirAdopt a).update k).game_over = true := by rw [hu, h4]; exact h
  unfold SnakeEngine.step
  dsimp only
  rw [if_pos hg, hu]

/-- Claim C6, amended: in a terminal state `step` leaves the snake body, food,
score and starvation counter unchanged, keeps the game-over flag, and returns
the terminal reward `(-10, true)` — but it is NOT a complete no-op on the
state: the heading is still mutated by the direction-adoption rule before the
terminal check. -/
theorem c6_terminal_step_frame (s : SnakeEngine) (a k : Nat)
    (h : s.game_over = true) :
    (s.step a k).1.snake = s.snake ∧ (s.step a k).1.food = s.food ∧
    (s.step a k).1.score = s.score ∧
    (s.step a k).1.steps_without_food = s.steps_without_food ∧
    (s.step a k).1.game_over = true ∧
    (s.step a k).2 = (-10, true) := by
  obtain ⟨h1, h2, h3, h4, h5, h6⟩ := dirAdopt_fields s a
  rw [step_terminal_eq s a k h]
  exact ⟨h1, h2, h3, h5, by rw [h4]; exact h, rfl⟩

/-- Counterexample to C6 as stated: in the terminal state `exTermEngine`
(heading right), `step` with action 0 (up) changes the heading to up, so the
terminal state is not absorbing for the ENTIRE game state. -/
theorem c6_cex_direction_mutated :
    exTermEngine.game_over = true ∧
    exTermEngine.direction = Direction.right ∧
    (exTermEngine.step 0 0).1.direction = Direction.up ∧
    (exTermEngine.step 0 0).1 ≠ exTermEngine := by
  refine ⟨rfl, rfl, ?_, ?_⟩ <;> decide

/-- Witness for C6's amended theorem at the concrete terminal state. -/
theorem c6_witness :
    exTermEngine.game_over = true ∧
    ((exTermEngine.step 0 0).1.snake = exTermEngine.snake ∧
     (exTermEngine.step 0 0).1.food = exTermEngine.food ∧
     (exTermEngine.step 0 0).1.score = exTermEngine.score ∧
     (exTermEngine.step 0 0).1.steps_without_food =
       exTermEngine.steps_without_food ∧
     (exTermEngine.step 0 0).1.game_over = true ∧
     (exTermEngine.step 0 0).2 = (-10, true)) :=
  ⟨rfl, c6_terminal_step_frame exTermEngine 0 0 rfl⟩

/-! ### Claim C9 -/

/-- Claim C9: on a non-terminal, non-eating, non-starving step the returned
reward is the approach shaping (±1 by Manhattan distance) plus the safety
term exactly as the claim states it (`specSafetyTerm`, built from the two
breadth-first searches `flood_fill_from_head` and `can_reach_tail`); and at
or below the 15%-of-area size threshold that safety term is exactly 0. -/
theorem c9_safety_term (s : SnakeEngine) (a k : Nat)
    (hgo : ((s.dirAdopt a).update k).game_over = false)
    (hsc : ((s.dirAdopt a).update k).score = (s.dirAdopt a).score)
    (hst : ¬ (((s.dirAdopt a).update k).steps_without_food + 1 >
      ((s.dirAdopt a).update k).grid_size * ((s.dirAdopt a).update k).grid_size)) :
    (s.step a k).2.1 =
      (if ((s.dirAdopt a).update k).headDistToFood <
          (s.dirAdopt a).headDistToFood then 1 else -1) +
        specSafetyTerm ((s.dirAdopt a).update k) ∧
    (¬ ((((s.dirAdopt a).update k).snake.length : ℚ) >
        ((((s.dirAdopt a).update k).grid_size *
          ((s.dirAdopt a).update k).grid_size : Int) : ℚ) * 0.15) →
      specSafetyTerm ((s.dirAdopt a).update k) = 0) := by
  constructor
  · have c1 : ¬ (((s.dirAdopt a).update k).game_over = true) := by
      rw [hgo]; exact Bool.false_ne_true
    have c2 : ¬ (((s.dirAdopt a).update k).score > (s.dirAdopt a).score) := by
      rw [hsc]; exact lt_irrefl _
    have hff : SnakeEngine.flood_fill_from_head
        { (s.dirAdopt a).update k with steps_without_food :=
            ((s.dirAdopt a).update k).steps_without_food + 1 } =
        ((s.dirAdopt a).update k).flood_fill_from_head := rfl
    have hct : SnakeEngine.can_reach_tail
        { (s.dirAdopt a).update k with steps_without_food :=
            ((s.dirAdopt a).update k).steps_without_food + 1 } =
        ((s.dirAdopt a).update k).can_reach_tail := rfl
    unfold SnakeEngine.step
    dsimp only
    rw [if_neg c1, if_neg c2, if_neg hst]
    unfold specSafetyTerm
    dsimp only [SnakeEngine.headDistToFood]
    rw [mul_comm (1.5 : ℚ) _, hff, hct]
  · intro hthr
    unfold specSafetyTerm
    dsimp only
    rw [if_neg hthr]

/-- Witness for C9 at the 4×4 state `exEngine9` (snake length 3 > 2.4 = 15%
of area), stepping right: a non-terminal, non-eating, non-starving step. -/
theorem c9_witness :
    (((exEngine9.dirAdopt 1).update 0).game_over = false ∧
     ((exEngine9.dirAdopt 1).update 0).score = (exEngine9.dirAdopt 1).score ∧
     ¬ (((exEngine9.dirAdopt 1).update 0).steps_without_food + 1 >
       ((exEngine9.dirAdopt 1).update 0).grid_size *
         ((exEngine9.dirAdopt 1).update 0).grid_size)) ∧
    ((exEngine9.step 1 0).2.1 =
      (if ((exEngine9.dirAdopt 1).update 0).headDistToFood <
          (exEngine9.dirAdopt 1).headDistToFood then 1 else -1) +
        specSafetyTerm ((exEngine9.dirAdopt 1).update 0) ∧
    (¬ ((((exEngine9.dirAdopt 1).update 0).snake.length : ℚ) >
        ((((exEngine9.dirAdopt 1).update 0).grid_size *
          ((exEngine9.dirAdopt 1).update 0).grid_size : Int) : ℚ) * 0.15) →
      specSafetyTerm ((exEngine9.dirAdopt 1).update 0) = 0)) :=
  ⟨⟨by decide, by decide, by decide⟩,
   c9_safety_term exEngine9 1 0 (by decide) (by decide) (by decide)⟩

/-! ### Claim C7 -/

theorem remember_scalar_fields (ag : DQNAgent) (e : Experience) :
    (ag.remember e).epsilon = ag.epsilon ∧
    (ag.remember e).epsilon_min = ag.epsilon_min ∧
    (ag.remember e).epsilon_decay = ag.epsilon_decay := ⟨rfl, rfl, rfl⟩

theorem train_scalar_fields (fsqrt : ℚ → ℚ) (ag ag' : DQNAgent)
    (indices : List Nat) (h : ag.train fsqrt indices = some ag') :
    ag'.epsilon = ag.epsilon ∧ ag'.epsilon_min = ag.epsilon_min ∧
    ag'.epsilon_decay = ag.epsilon_decay := by
  unfold DQNAgent.train at h
  split at h
  · obtain rfl : ag = ag' := Option.some.inj h
    exact ⟨rfl, rfl, rfl⟩
  · split at h
    · rcases Option.bind_eq_some.mp h with ⟨q1, _, h⟩
      rcases Option.bind_eq_some.mp h with ⟨q2, _, h⟩
      rcases Option.bind_eq_some.mp h with ⟨q3, _, h⟩
      obtain rfl := Option.some.inj h
      exact ⟨rfl, rfl, rfl⟩
    · exact absurd h (by simp)

theorem step_and_train_scalar_fields (fsqrt : ℚ → ℚ) (ag ag' : DQNAgent)
    (indices : List Nat) (h : ag.step_and_train fsqrt indices = some ag') :
    ag'.epsilon = ag.epsilon ∧ ag'.epsilon_min = ag.epsilon_min ∧
    ag'.epsilon_decay = ag.epsilon_decay := by
  unfold DQNAgent.step_and_train at h
  dsimp only at h
  split at h
  · obtain rfl := Option.some.inj h
    exact ⟨rfl, rfl, rfl⟩
  · have := train_scalar_fields fsqrt
      { ag with step_count := ag.step_count + 1 } ag' indices h
    exact this

/-- Claim C7, amended: `end_episode` multiplies ε by the decay factor only
while ε is strictly above the floor, and applies NO clamp afterwards; hence
the invariant maintained over every reachable agent state is the weaker
ε ≥ ε_min · decay (with ε_min = 0.01 and decay = 0.998 fixed at
construction), not ε ≥ ε_min. -/
theorem c7_epsilon_floor_decay (fsqrt : ℚ → ℚ) (ag : DQNAgent)
    (h : DQNAgent.Reachable fsqrt ag) :
    ag.epsilon_min = 0.01 ∧ ag.epsilon_decay = 0.998 ∧
    ag.epsilon_min * ag.epsilon_decay ≤ ag.epsilon := by
  induction h with
  | init w0 w1 w2 => exact ⟨rfl, rfl, by norm_num [DQNAgent.new]⟩
  | rem e _ ih => exact ih
  | sat indices _ hsome ih =>
    obtain ⟨f1, f2, f3⟩ := step_and_train_scalar_fields _ _ _ indices hsome
    exact ⟨by rw [f2]; exact ih.1, by rw [f3]; exact ih.2.1,
      by rw [f1, f2, f3]; exact ih.2.2⟩
  | ep _ ih =>
    obtain ⟨e1, e2, e3⟩ := ih
    unfold DQNAgent.end_episode DQNAgent.decay_epsilon
    split
    · refine ⟨e1, e2, ?_⟩
      dsimp only
      rw [e1, e2]
      calc (0.01 : ℚ) * 0.998 ≤ _ * 0.998 := by
            apply mul_le_mul_of_nonneg_right _ (by norm_num)
            rw [← e1]
            exact le_of_lt (by assumption)
        _ = _ := rfl
    · exact ⟨e1, e2, e3⟩

/-- Counterexample to C7 as stated: at ε = 0.010001 (just above the floor
0.01), `end_episode` yields ε = 0.009980998 — strictly below ε_min and not
equal to the multiply-then-clamp value the claim describes. -/
theorem c7_cex_no_clamp :
    exEpsAgent.epsilon_min = 0.01 ∧
    exEpsAgent.end_episode.epsilon < exEpsAgent.epsilon_min ∧
    exEpsAgent.end_episode.epsilon ≠
      max (exEpsAgent.epsilon * exEpsAgent.epsilon_decay) exEpsAgent.epsilon_min := by
  have hmax : max (exEpsAgent.epsilon * exEpsAgent.epsilon_decay)
      exEpsAgent.epsilon_min = exEpsAgent.epsilon_min := by
    apply max_eq_right
    norm_num [exEpsAgent, exTieAgent]
  refine ⟨rfl, ?_, ?_⟩
  · norm_num [DQNAgent.end_episode, DQNAgent.decay_epsilon, exEpsAgent, exTieAgent]
  · rw [hmax]
    norm_num [DQNAgent.end_episode, DQNAgent.decay_epsilon, exEpsAgent, exTieAgent]

/-- Witness for C7's amended invariant, at a freshly constructed agent. -/
theorem c7_witness :
    (DQNAgent.new [] [] []).epsilon_min = 0.01 ∧
    (DQNAgent.new [] [] []).epsilon_decay = 0.998 ∧
    (DQNAgent.new [] [] []).epsilon_min * (DQNAgent.new [] [] []).epsilon_decay ≤
      (DQNAgent.new [] [] []).epsilon :=
  c7_epsilon_floor_decay zeroSqrt (DQNAgent.new [] [] [])
    (DQNAgent.Reachable.init [] [] [])

/-! ### Claim C8 -/

theorem drop_cons_of_pos {α : Type} (a : α) (l : List α) (n : Nat)
    (h : 0 < n) : (a :: l).drop n = l.drop (n - 1) := by
  cases n with
  | zero => omega
  | succ m => rw [List.drop_succ_cons]; simp

theorem foldl_remember_drop : ∀ (xs : List Experience) (ag : DQNAgent),
    0 < ag.buffer_size → ag.replay_buffer.length ≤ ag.buffer_size →
    (List.foldl DQNAgent.remember ag xs).replay_buffer =
      (ag.replay_buffer ++ xs).drop
        (ag.replay_buffer.length + xs.length - ag.buffer_size) ∧
    (List.foldl DQNAgent.remember ag xs).buffer_size = ag.buffer_size := by
  intro xs
  induction xs with
  | nil =>
    intro ag h0 hlen
    refine ⟨?_, rfl⟩
    rw [List.foldl_nil, List.append_nil, List.length_nil, Nat.add_zero,
      Nat.sub_eq_zero_of_le hlen, List.drop_zero]
  | cons e xs ih =>
    intro ag h0 hlen
    rw [List.foldl_cons]
    by_cases hf : ag.replay_buffer.length ≥ ag.buffer_size
    · have hlenC : ag.replay_buffer.length = ag.buffer_size :=
        le_antisymm hlen hf
    
      have hbuf : (ag.remember e).replay_buffer = ag.replay_buffer.tail ++ [e] := by
        unfold DQNAgent.remember
        dsimp only
        rw [if_pos hf]
      have hbs : (ag.remember e).buffer_size = ag.buffer_size := rfl
      have hlen1 : (ag.remember e).replay_buffer.length ≤
          (ag.remember e).buffer_size := by
        rw [hbuf, hbs, List.length_append, List.length_tail]
        simp only [List.length_singleton]
        omega
      obtain ⟨ihb, ihs⟩ := ih (ag.remember e) (by rw [hbs]; exact h0) hlen1
      refine ⟨?_, by rw [ihs, hbs]⟩
      rw [ihb, hbuf, hbs]
      obtain ⟨hd, tl, hb⟩ : ∃ hd tl, ag.replay_buffer = hd :: tl := by
        cases hcase : ag.replay_buffer with
        | nil =>
          rw [hcase] at hlenC
          simp at hlenC
          omega
        | cons hd tl => exact ⟨hd, tl, rfl⟩
      rw [hb]
      rw [hb, List.length_cons] at hlenC
      simp only [List.tail_cons, List.length_append, List.length_cons,
        List.length_nil, Nat.zero_add]
      rw [List.append_assoc, List.singleton_append, List.cons_append]
      rw [drop_cons_of_pos hd (tl ++ e :: xs)
        (tl.length + 1 + (xs.length + 1) - ag.buffer_size) (by omega)]
      congr 1
      omega
    · have hbuf : (ag.remember e).replay_buffer = ag.replay_buffer ++ [e] := by
        unfold DQNAgent.remember
        dsimp only
        rw [if_neg hf]
      have hbs : (ag.remember e).buffer_size = ag.buffer_size := rfl
      have hlt : ag.replay_buffer.length < ag.buffer_size := lt_of_not_ge hf
      have hlen1 : (ag.remember e).replay_buffer.length ≤
          (ag.remember e).buffer_size := by
        rw [hbuf, hbs, List.length_append]
        simp only [List.length_singleton]
        omega
      obtain ⟨ihb, ihs⟩ := ih (ag.remember e) (by rw [hbs]; exact h0) hlen1
      refine ⟨?_, by rw [ihs, hbs]⟩
      rw [ihb, hbuf, hbs]
      rw [List.append_assoc, List.singleton_append]
      congr 1
      simp only [List.length_append, List.length_singleton, List.length_cons,
        List.length_nil, Nat.zero_add]
      omega

/-- Claim C8: the replay buffer length never exceeds the capacity under
`remember` (for the positive capacity the agent is built with), and inserting
capacity + 1 experiences into an empty buffer leaves exactly the most recent
`capacity` of them, in their original relative order, with the oldest one
evicted (absent whenever it differs from the later ones). -/
theorem c8_buffer_fifo (ag : DQNAgent) (x : Experience) (xs : List Experience)
    (h0 : 0 < ag.buffer_size) (hemp : ag.replay_buffer = [])
    (hlen : xs.length = ag.buffer_size) :
    (List.foldl DQNAgent.remember ag (x :: xs)).replay_buffer = xs ∧
    (x ∉ xs → x ∉ (List.foldl DQNAgent.remember ag (x :: xs)).replay_buffer) ∧
    (∀ (b : DQNAgent) (e : Experience), 0 < b.buffer_size →
      b.replay_buffer.length ≤ b.buffer_size →
      (b.remember e).replay_buffer.length ≤ b.buffer_size) := by
  have hmain : (List.foldl DQNAgent.remember ag (x :: xs)).replay_buffer = xs := by
    obtain ⟨hb, _⟩ := foldl_remember_drop (x :: xs) ag h0 (by rw [hemp]; simp)
    rw [hb, hemp]
    simp only [List.nil_append, List.length_nil, List.length_cons, Nat.zero_add]
    rw [hlen]
    have h1 : ag.buffer_size + 1 - ag.buffer_size = 1 := by omega
    rw [h1, List.drop_succ_cons, List.drop_zero]
  refine ⟨hmain, ?_, ?_⟩
  · intro hx
    rw [hmain]
    exact hx
  · intro b e hb0 hble
    by_cases hf : b.replay_buffer.length ≥ b.buffer_size
    · have hbuf : (b.remember e).replay_buffer = b.replay_buffer.tail ++ [e] := by
        unfold DQNAgent.remember
        dsimp only
        rw [if_pos hf]
      rw [hbuf, List.length_append, List.length_tail]
      simp only [List.length_singleton]
      omega
    · have hbuf : (b.remember e).replay_buffer = b.replay_buffer ++ [e] := by
        unfold DQNAgent.remember
        dsimp only
        rw [if_neg hf]
      rw [hbuf, List.length_append]
      simp only [List.length_singleton]
      omega

/-- Witness for C8 at capacity 2 with three distinct experiences. -/
theorem c8_witness :
    (0 < exBufAgent.buffer_size ∧ exBufAgent.replay_buffer = [] ∧
      ([expB, expC] : List Experience).length = exBufAgent.buffer_size ∧
      expA ∉ [expB, expC]) ∧
    (List.foldl DQNAgent.remember exBufAgent [expA, expB, expC]).replay_buffer =
      [expB, expC] ∧
    expA ∉ (List.foldl DQNAgent.remember exBufAgent
      [expA, expB, expC]).replay_buffer :=
  ⟨⟨by decide, rfl, by decide, by decide⟩,
   (c8_buffer_fifo exBufAgent expA [expB, expC] (by decide) rfl (by decide)).1,
   (c8_buffer_fifo exBufAgent expA [expB, expC] (by decide) rfl
     (by decide)).2.1 (by decide)⟩

/-! ### Claim C4 -/

/-- Claim C4: `soft_update_into` (modelled from the spec, since only its call
site is under `src/`) blends every weight and bias element as
`tau·source + (1−tau)·target`; with `tau = 1` the target's weights and biases
become exactly the source's; and every completed `DQNAgent::train` call ends
by applying it with the agent's `tau`, which `DQNAgent::new` fixes at 0.001. -/
theorem c4_soft_update_formula :
    (∀ (src tgt : Network) (tau : ℚ) (li wi bi : Nat),
      li < src.layers.length → li < tgt.layers.length →
      (wi < (src.layers.getD li default).weights.length →
       wi < (tgt.layers.getD li default).weights.length →
       ((soft_update_into src tgt tau).layers.getD li default).weights.getD wi 0 =
         tau * (src.layers.getD li default).weights.getD wi 0 +
         (1 - tau) * (tgt.layers.getD li default).weights.getD wi 0) ∧
      (bi < (src.layers.getD li default).biases.length →
       bi < (tgt.layers.getD li default).biases.length →
       ((soft_update_into src tgt tau).layers.getD li default).biases.getD bi 0 =
         tau * (src.layers.getD li default).biases.getD bi 0 +
         (1 - tau) * (tgt.layers.getD li default).biases.getD bi 0)) ∧
    (∀ (src tgt : Network), src.layers.length = tgt.layers.length →
      (∀ li, li < src.layers.length →
        (src.layers.getD li default).weights.length =
          (tgt.layers.getD li default).weights.length ∧
        (src.layers.getD li default).biases.length =
          (tgt.layers.getD li default).biases.length) →
      ∀ li, li < src.layers.length →
        ((soft_update_into src tgt 1).layers.getD li default).weights =
          (src.layers.getD li default).weights ∧
        ((soft_update_into src tgt 1).layers.getD li default).biases =
          (src.layers.getD li default).biases) ∧
    (∀ (fsqrt : ℚ → ℚ) (ag : DQNAgent) (indices : List Nat),
      ¬ ag.replay_buffer.length < ag.batch_size →
      (ag.train fsqrt indices).map (fun a => a.target_network) =
      (ag.train fsqrt indices).map
        (fun a => soft_update_into a.network ag.target_network ag.tau)) ∧
    (∀ w0 w1 w2 : List ℚ, (DQNAgent.new w0 w1 w2).tau = 1 / 1000) := by
  refine ⟨?_, ?_, ?_, ?_⟩
  · intro src tgt tau li wi bi hs ht
    have hL : (soft_update_into src tgt tau).layers.getD li default =
        { tgt.layers.getD li default with
          weights := List.zipWith (fun sv tv => tau * sv + (1 - tau) * tv)
            (src.layers.getD li default).weights
            (tgt.layers.getD li default).weights,
          biases := List.zipWith (fun sv tv => tau * sv + (1 - tau) * tv)
            (src.layers.getD li default).biases
            (tgt.layers.getD li default).biases } := by
      unfold soft_update_into
      dsimp only
      exact getD_zipWith _ src.layers tgt.layers li default default default hs ht
    constructor
    · intro hw1 hw2
      rw [hL]
      dsimp only
      exact getD_zipWith _ _ _ wi 0 0 0 hw1 hw2
    · intro hb1 hb2
      rw [hL]
      dsimp only
      exact getD_zipWith _ _ _ bi 0 0 0 hb1 hb2
  · intro src tgt hlen hshapes li hli
    have hL : (soft_update_into src tgt 1).layers.getD li default =
        { tgt.layers.getD li default with
          weights := List.zipWith (fun sv tv => 1 * sv + (1 - 1) * tv)
            (src.layers.getD li default).weights
            (tgt.layers.getD li default).weights,
          biases := List.zipWith (fun sv tv => 1 * sv + (1 - 1) * tv)
            (src.layers.getD li default).biases
            (tgt.layers.getD li default).biases } := by
      unfold soft_update_into
      dsimp only
      exact getD_zipWith _ src.layers tgt.layers li default default default hli
        (hlen ▸ hli)
    rw [hL]
    exact ⟨zipWith_tau_one _ _ (hshapes li hli).1,
      zipWith_tau_one _ _ (hshapes li hli).2⟩
  · intro fsqrt ag indices hfull
    unfold DQNAgent.train
    rw [if_neg hfull]
    split
    · dsimp only
      cases h1 : ag.network.predict_batch
          (indices.map (fun i => (ag.replay_buffer.getD i default).state)) with
      | none => rfl
      | some currentQs =>
        cases h2 : ag.network.predict_batch
            (indices.map (fun i => (ag.replay_buffer.getD i default).next_state)) with
        | none => rfl
        | some mainNextQs =>
          cases h3 : ag.target_network.predict_batch
              (indices.map (fun i => (ag.replay_buffer.getD i default).next_state)) with
          | none => rfl
          | some targetNextQs => rfl
    · rfl
  · intro w0 w1 w2
    norm_num [DQNAgent.new]

/-- Witness for C4's hypotheses-bearing parts at concrete networks/agents. -/
theorem c4_witness :
    (0 < exTieNet.layers.length ∧
      0 < (exTieNet.layers.getD 0 default).weights.length ∧
      ¬ exTrainAgent.replay_buffer.length < exTrainAgent.batch_size) ∧
    ((soft_update_into exTieNet exTieNet 0.5).layers.getD 0 default).weights.getD 0 0 =
      0.5 * (exTieNet.layers.getD 0 default).weights.getD 0 0 +
      (1 - 0.5) * (exTieNet.layers.getD 0 default).weights.getD 0 0 ∧
    ((soft_update_into exTieNet exTieNet 1).layers.getD 0 default).weights =
      (exTieNet.layers.getD 0 default).weights ∧
    (DQNAgent.train zeroSqrt exTrainAgent [0]).map (fun a => a.target_network) =
      (DQNAgent.train zeroSqrt exTrainAgent [0]).map
        (fun a => soft_update_into a.network exTrainAgent.target_network
          exTrainAgent.tau) ∧
    (DQNAgent.new [] [] []).tau = 1 / 1000 :=
  ⟨⟨by decide, by decide, by decide⟩,
   (c4_soft_update_formula.1 exTieNet exTieNet 0.5 0 0 0 (by decide)
     (by decide)).1 (by decide) (by decide),
   (c4_soft_update_formula.2.1 exTieNet exTieNet rfl (by decide) 0 (by decide)).1,
   c4_soft_update_formula.2.2.1 zeroSqrt exTrainAgent [0] (by decide),
   c4_soft_update_formula.2.2.2 [] [] []⟩

/-! ### Claim C5 -/

/-- Claim C5: the training target matrix is the primary network's current
predictions with, per sampled row, only the taken action's column overwritten
— by the raw reward on terminal transitions, else by
reward + γ · (target network's value of the action the primary network ranks
best on the next state); every other column is untouched, and the "ranks
best" index does attain the row maximum. -/
theorem c5_train_targets_overwrite
    (currentQs mainNextQs targetNextQs : List (List ℚ))
    (indices : List Nat) (buf : List Experience) (g : ℚ) (idx : Nat)
    (hidx : idx < currentQs.length) :
    (train_targets currentQs mainNextQs targetNextQs indices buf g).length =
      currentQs.length ∧
    (∀ j, j < (currentQs.getD idx []).length →
      j ≠ (buf.getD (indices.getD idx 0) default).action →
      ((train_targets currentQs mainNextQs targetNextQs indices buf g).getD
          idx []).getD j 0 =
        (currentQs.getD idx []).getD j 0) ∧
    ((buf.getD (indices.getD idx 0) default).action <
        (currentQs.getD idx []).length →
      ((train_targets currentQs mainNextQs targetNextQs indices buf g).getD
          idx []).getD (buf.getD (indices.getD idx 0) default).action 0 =
        (if (buf.getD (indices.getD idx 0) default).done then
          (buf.getD (indices.getD idx 0) default).reward
        else (buf.getD (indices.getD idx 0) default).reward + g *
          (targetNextQs.getD idx []).getD
            (bestActionIdx (mainNextQs.getD idx [])) 0)) ∧
    (∀ row : List ℚ, row ≠ [] → ∀ j, j < row.length →
      row.getD j 0 ≤ row.getD (bestActionIdx row) 0) := by
  have hrow : (train_targets currentQs mainNextQs targetNextQs indices buf g).getD
      idx [] =
      (currentQs.getD idx []).set
        (buf.getD (indices.getD idx 0) default).action
        (if (buf.getD (indices.getD idx 0) default).done then
          (buf.getD (indices.getD idx 0) default).reward
        else (buf.getD (indices.getD idx 0) default).reward + g *
          (targetNextQs.getD idx []).getD
            (bestActionIdx (mainNextQs.getD idx [])) 0) := by
    unfold train_targets
    exact getD_map_range _ currentQs.length idx [] hidx
  refine ⟨?_, ?_, ?_, ?_⟩
  · unfold train_targets
    simp
  · intro j hj hne
    rw [hrow, getD_set_ne _ _ _ _ _ (Ne.symm hne)]
  · intro hact
    rw [hrow, getD_set_self _ _ _ _ hact]
  · intro row hrne j hj
    obtain ⟨i, hmax, _, hub, _⟩ := maxByLast_char row hrne
    have hb : bestActionIdx row = i := by
      unfold bestActionIdx
      rw [hmax]
      rfl
    rw [hb]
    exact hub j hj

/-- Witness for C5 on a one-row batch with action 2, reward 3, γ = 1. -/
theorem c5_witness :
    (0 < ([[(1 : ℚ), 2, 3, 4]] : List (List ℚ)).length) ∧
    (train_targets [[(1 : ℚ), 2, 3, 4]] [[0, 5, 0, 0]] [[9, 8, 7, 6]] [0]
      [⟨[], 2, 3, [], false⟩] 1).length =
      ([[(1 : ℚ), 2, 3, 4]] : List (List ℚ)).length ∧
    ((train_targets [[(1 : ℚ), 2, 3, 4]] [[0, 5, 0, 0]] [[9, 8, 7, 6]] [0]
      [⟨[], 2, 3, [], false⟩] 1).getD 0 []).getD 0 0 =
      (([[(1 : ℚ), 2, 3, 4]] : List (List ℚ)).getD 0 []).getD 0 0 ∧
    ((train_targets [[(1 : ℚ), 2, 3, 4]] [[0, 5, 0, 0]] [[9, 8, 7, 6]] [0]
      [⟨[], 2, 3, [], false⟩] 1).getD 0 []).getD
        (([⟨[], 2, 3, [], false⟩] : List Experience).getD
          (([0] : List Nat).getD 0 0) default).action 0 =
      (if (([⟨[], 2, 3, [], false⟩] : List Experience).getD
          (([0] : List Nat).getD 0 0) default).done then
        (([⟨[], 2, 3, [], false⟩] : List Experience).getD
          (([0] : List Nat).getD 0 0) default).reward
      else (([⟨[], 2, 3, [], false⟩] : List Experience).getD
          (([0] : List Nat).getD 0 0) default).reward + 1 *
        (([[(9 : ℚ), 8, 7, 6]] : List (List ℚ)).getD 0 []).getD
          (bestActionIdx (([[(0 : ℚ), 5, 0, 0]] : List (List ℚ)).getD 0 [])) 0) := by
  refine ⟨by decide, ?_, ?_, ?_⟩
  · exact (c5_train_targets_overwrite [[(1 : ℚ), 2, 3, 4]] [[0, 5, 0, 0]]
      [[9, 8, 7, 6]] [0] [⟨[], 2, 3, [], false⟩] 1 0 (by decide)).1
  · exact (c5_train_targets_overwrite [[(1 : ℚ), 2, 3, 4]] [[0, 5, 0, 0]]
      [[9, 8, 7, 6]] [0] [⟨[], 2, 3, [], false⟩] 1 0 (by decide)).2.1 0
      (by decide) (by decide)
  · exact (c5_train_targets_overwrite [[(1 : ℚ), 2, 3, 4]] [[0, 5, 0, 0]]
      [[9, 8, 7, 6]] [0] [⟨[], 2, 3, [], false⟩] 1 0 (by decide)).2.2.1
      (by decide)

/-! ### Claim C10 -/

/-- Claim C10: with the NaN-freeness of the outputs made structural by the ℚ
embedding, `act_greedy` (and therefore the greedy branch of `act`, as well as
its exploring branch) always returns `some` action index strictly below 4 on
any three-layer network whose shapes chain and whose last layer is 4 wide —
the argmax `.unwrap()` branch is unreachable. -/
theorem c10_act_index_lt_four (ag : DQNAgent) (f : List ℚ)
    (l0 l1 l2 : DenseLayer) (hl : ag.network.layers = [l0, l1, l2])
    (h0 : l0.in_size ≤ f.length) (h1 : l1.in_size ≤ l0.out_size)
    (h2 : l2.in_size ≤ l1.out_size) (h4 : l2.out_size = 4) :
    (∃ i, ag.act_greedy f = some i ∧ i < 4) ∧
    (∀ (r : ℚ) (ra : Fin 4), ∃ i, ag.act f r ra = some i ∧ i < 4) := by
  obtain ⟨q, hq, hqlen⟩ := forward_some_of_shapes ag.network l0 l1 l2 f hl h0 h1 h2
  have hne : q ≠ [] := by
    intro hF
    rw [hF, h4] at hqlen
    simp at hqlen
  obtain ⟨i, hmax, hlt, _, _⟩ := maxByLast_char q hne
  have hg : ag.act_greedy f = some i := by
    unfold DQNAgent.act_greedy
    rw [hq, Option.some_bind, hmax]
    rfl
  have hlt4 : i < 4 := by
    rw [hqlen, h4] at hlt
    exact hlt
  refine ⟨⟨i, hg, hlt4⟩, ?_⟩
  intro r ra
  unfold DQNAgent.act
  split
  · exact ⟨ra.val, rfl, ra.isLt⟩
  · exact ⟨i, hg, hlt4⟩

/-- Witness for C10 at the small concrete network `exNet10`. -/
theorem c10_witness :
    (exAgent10.network.layers = [DenseLayer.new 2 2 true [1, 0, 0, 1],
      DenseLayer.new 2 3 true [1, 0, 0, 0, 1, 0],
      DenseLayer.new 3 4 false [1, 0, 0, 0, 0, 2, 0, 0, 0, 0, 3, 0]] ∧
      (DenseLayer.new 2 2 true [1, 0, 0, 1]).in_size ≤ ([1, 2] : List ℚ).length) ∧
    (∃ i, exAgent10.act_greedy [1, 2] = some i ∧ i < 4) ∧
    (∀ (r : ℚ) (ra : Fin 4), ∃ i, exAgent10.act [1, 2] r ra = some i ∧ i < 4) :=
  ⟨⟨rfl, by decide⟩,
   (c10_act_index_lt_four exAgent10 [1, 2] _ _ _ rfl (by decide) (by decide)
     (by decide) rfl).1,
   (c10_act_index_lt_four exAgent10 [1, 2] _ _ _ rfl (by decide) (by decide)
     (by decide) rfl).2⟩
